import Mathlib

/-!
Verification of the pharmacy-receipt extraction engine and its store.

This file is a shallow embedding, in Lean 4, of the receipt text-to-structured-data
parser (`extract_sales_data` / `_extract_single_item_sales_data` /
`_calculate_missing_prices`) and of the persistence layer (`DataManager.save_data`,
`DataManager.load_data`, `get_last_content`, and the dedup guard of
`collect_and_save_data`) from `src/app.py`, together with theorems settling the
frozen specification claims.

Modelling conventions, stated once here:

* Python `str` is modelled by Lean `String`, operations are implemented on the
  underlying character list (`String.data`), so every definition evaluates by
  kernel reduction.  `len` is the character count, matching Python.
* The Cyrillic string literals of `src/app.py` appear in the committed file as a
  mac-roman mojibake of the intended UTF-8 text (for example the label written
  there renders as a dash-and-accents sequence; decoding the round-trip yields
  the actual tokens).  The constants below use the decoded code points, which is
  what the specification's scenarios use as well; every such constant is treated
  as an opaque token and no claim depends on its particular spelling.
* Python's `\d`, `str.isdigit` and `\s` classes are modelled on their ASCII
  fragments (`Char.isDigit`, `isSpaceChar`); receipts use ASCII digits.
* Python `float` values are modelled as exact rationals represented by an
  explicit numerator/denominator pair `Dec` (kept unreduced so every operation
  evaluates by kernel reduction; `Dec.toRat` links the representation to `ℚ`):
  `float(s)` becomes `pyFloat? s : Option Dec` (`none` models `ValueError`;
  scientific notation, `inf`/`nan` and underscore separators are not
  modelled), and the `.2f` format becomes `formatFixed2`, rounding
  half-to-even at two decimals of the exact value.
* Exceptions are modelled with `Except PyExc`; the `try/except` of
  `_calculate_missing_prices` is the only catch site in the parsing core.
* The JSON file behind `DataManager` is modelled as an in-memory
  `List Entry` threaded through the operations; I/O failures (caught and turned
  into `False`/`[]` by the code) are outside the pure model.  `datetime.now()`
  is passed in as an explicit `now : String` argument.
-/

namespace Pharmacy

/-! ## Character-list string primitives (Python semantics) -/

/-- Python whitespace for `str.strip` / `\s`, restricted to its ASCII fragment. -/
def isSpaceChar (c : Char) : Bool :=
  c = ' ' || c = '\t' || c = '\n' || c = '\r' || c = '\x0b' || c = '\x0c'

/-- Python `s.strip()` on a character list: drop whitespace from both ends. -/
def listStrip (l : List Char) : List Char :=
  ((l.dropWhile isSpaceChar).reverse.dropWhile isSpaceChar).reverse

/-- Python `s.strip()`. -/
def pyStrip (s : String) : String := ⟨listStrip s.data⟩

/-- Split a character list at every occurrence of a single character,
Python `s.split(c)` (keeping empty fields). -/
def splitChar (sep : Char) : List Char → List (List Char)
  | [] => [[]]
  | c :: rest =>
    match splitChar sep rest with
    | [] => [[]]
    | h :: t => if c = sep then [] :: h :: t else (c :: h) :: t

/-- Substring test: `listHasSub pat hay` is Python `pat in hay`. -/
def listHasSub (pat : List Char) : List Char → Bool
  | [] => pat.isEmpty
  | c :: rest => pat.isPrefixOf (c :: rest) || listHasSub pat rest

/-- Python `pat in s` (substring containment). -/
def strContains (s pat : String) : Bool := listHasSub pat.data s.data

/-- Fuel-driven worker for `splitOnSub`; fuel `s.length + 1` always suffices.
Written with explicit fuel so that it is structurally recursive and reduces in
the kernel. -/
def splitOnSubAux (pat : List Char) : Nat → List Char → List (List Char)
  | 0, _ => [[]]
  | _ + 1, [] => [[]]
  | fuel + 1, c :: rest =>
    if pat.isPrefixOf (c :: rest) && !pat.isEmpty then
      [] :: splitOnSubAux pat fuel (rest.drop (pat.length - 1))
    else
      match splitOnSubAux pat fuel rest with
      | [] => [[c]]
      | h :: t => (c :: h) :: t

/-- Python `s.split(pat)` for a non-empty multi-character separator
(left-to-right, non-overlapping; the code never splits on an empty separator,
which would raise). -/
def splitOnSub (pat s : List Char) : List (List Char) :=
  splitOnSubAux pat (s.length + 1) s

/-- Python `s.replace(pat, '')`: remove all (non-overlapping, left-to-right)
occurrences of `pat`; equals joining the fields of `s.split(pat)`. -/
def removeSub (pat s : List Char) : List Char := (splitOnSub pat s).flatten

/-- Python `line.replace(label, '').strip()` as used for the label lines. -/
def stripLabel (label l : String) : String := pyStrip ⟨removeSub label.data l.data⟩

/-- Python `s.replace(',', '.')` (single-character replacement). -/
def commaToDot (s : String) : String :=
  ⟨s.data.map (fun c => if c = ',' then '.' else c)⟩

/-- Python `s.isdigit()` (ASCII fragment): non-empty and all digits. -/
def pyIsdigit (s : String) : Bool := !s.data.isEmpty && s.data.all Char.isDigit

/-- Numeric value of a digit string (most significant first). -/
def digitsVal (l : List Char) : Nat := l.foldl (fun a c => a * 10 + (c.toNat - 48)) 0

/-! ## The fixed tokens of the receipt layout (see the mojibake note above) -/

/-- Tax-code label `УКТЗЕД` (appears mojibaked in the committed source). -/
def uktzedLabel : String := "УКТЗЕД"

/-- Barcode label `Штрих-код`. -/
def barcodeLabel : String := "Штрих-код"

/-- Unit suffix `шт` of the `<price> * <N> шт` quantity pattern. -/
def shtToken : String := "шт"

/-- The three tax-marker tokens `(А)`, `(Б)`, `(В)` tested by membership. -/
def taxMarkers : List String := ["(А)", "(Б)", "(В)"]

/-- The item separator sentinel of the scraped multi-item content. -/
def itemSeparator : String := "===ITEM_SEPARATOR==="

/-! ## Regex fragments used by the classifier -/

/-- `re.search(r'(\d+)\s*шт', part)`: leftmost digit run followed (after
optional whitespace) by the unit suffix; returns the captured digits. -/
def searchQty : List Char → Option String
  | [] => none
  | c :: rest =>
    if Char.isDigit c then
      (if shtToken.data.isPrefixOf
            (((c :: rest).dropWhile Char.isDigit).dropWhile isSpaceChar)
       then some ⟨(c :: rest).takeWhile Char.isDigit⟩
       else searchQty rest)
    else searchQty rest

/-- Character class `[\d\.,]` of the tax-breakdown price regex. -/
def numRunChar (c : Char) : Bool := c.isDigit || c = '.' || c = ','

/-- Character class `[А-Г]` of the tax-breakdown regex (single code point). -/
def taxMarkerClass (c : Char) : Bool := 'А' ≤ c && c ≤ 'Г'

/-- `re.search(r'([\d\.,]+)\s*\([А-Г]\)', line)`: leftmost maximal `[\d.,]` run
followed, after optional whitespace, by a parenthesised single tax-marker
letter; returns the captured run.  (Backtracking cannot help this pattern, so
the greedy scan is exact.) -/
def searchTotal : List Char → Option String
  | [] => none
  | c :: rest =>
    if numRunChar c then
      (match ((c :: rest).dropWhile numRunChar).dropWhile isSpaceChar with
       | '(' :: m :: ')' :: _ =>
         if taxMarkerClass m then some ⟨(c :: rest).takeWhile numRunChar⟩
         else searchTotal rest
       | _ => searchTotal rest)
    else searchTotal rest

/-- `re.match(r'^\d+[\.,]?\d*\s*$', line)`: digits, optional single `[.,]`,
digits, trailing whitespace, end. -/
def matchBareNum (l : List Char) : Bool :=
  let d1 := l.takeWhile Char.isDigit
  let r1 := l.dropWhile Char.isDigit
  if d1.isEmpty then false
  else
    let r2 := match r1 with
              | c :: t => if c = '.' || c = ',' then t else r1
              | [] => []
    (r2.dropWhile Char.isDigit).all isSpaceChar

/-- `re.match(r'^\d+[\.,]\d+$', line)`: a pure `digits[.,]digits` token. -/
def matchDecimalToken (l : List Char) : Bool :=
  match l.dropWhile Char.isDigit with
  | c :: t =>
    !(l.takeWhile Char.isDigit).isEmpty && (c = '.' || c = ',') &&
      !t.isEmpty && t.all Char.isDigit
  | [] => false

/-- `any(char.isdigit() for char in line)`. -/
def lineHasDigit (l : String) : Bool := l.data.any Char.isDigit

/-! ## Data model -/

/-- One parsed sale line item; the `sales_data` dict of
`_extract_single_item_sales_data`. -/
structure SalesItem where
  product_name : String
  uktzed : String
  barcode : String
  quantity : String
  unit_price : String
  total_price : String
  currency : String
  price_details : String
  price_breakdown : String
  item_index : Nat
deriving DecidableEq, Repr

/-- The initial `sales_data` dict of `_extract_single_item_sales_data`. -/
def initItem (i : Nat) : SalesItem :=
  { product_name := "", uktzed := "", barcode := "", quantity := "1",
    unit_price := "", total_price := "", currency := "UAH",
    price_details := "", price_breakdown := "", item_index := i }

/-! ## Line classifier (the single-pass `for line in lines` of the source) -/

/-- The quantity-pattern branch body: set `price_details`, split on `*`, take
the left part (trimmed) as `unit_price` and search the second part for the
quantity. -/
def starUpdate (sd : SalesItem) (line : String) : SalesItem :=
  match (splitChar '*' line.data).map (fun l => (⟨l⟩ : String)) with
  | p0 :: p1 :: _ =>
    (match searchQty p1.data with
     | some q => { sd with price_details := line, unit_price := pyStrip p0, quantity := q }
     | none => { sd with price_details := line, unit_price := pyStrip p0 })
  | _ => { sd with price_details := line }

/-- The tax-breakdown branch body: set `price_breakdown` and, when the price
regex matches, `total_price`. -/
def breakdownUpdate (sd : SalesItem) (line : String) : SalesItem :=
  match searchTotal line.data with
  | some t => { sd with price_breakdown := line, total_price := t }
  | none => { sd with price_breakdown := line }

/-- `isBarePriceLine` is rule 5 of the classifier: a pure short numeric line. -/
def isBarePriceLine (line : String) : Bool := matchBareNum line.data && line.length < 10

/-- One iteration of the classifier loop: the `if/elif` chain over a single
line, returning the updated `sales_data` and `identified_patterns` (the set is
modelled as a list queried by membership). -/
def stepLine (sd : SalesItem) (pats : List String) (line : String) : SalesItem × List String :=
  if strContains line uktzedLabel = true then
    ({ sd with uktzed := stripLabel uktzedLabel line }, line :: pats)
  else if strContains line barcodeLabel = true then
    ({ sd with barcode := stripLabel barcodeLabel line }, line :: pats)
  else if (strContains line ("*") && lineHasDigit line && strContains line shtToken) = true then
    (starUpdate sd line, line :: pats)
  else if (taxMarkers.any (fun m => strContains line m) && lineHasDigit line) = true then
    (breakdownUpdate sd line, line :: pats)
  else if isBarePriceLine line = true then
    ((if sd.total_price = ("") then { sd with total_price := pyStrip line } else sd), pats)
  else (sd, pats)

/-- The classifier loop over all lines. -/
def processLines (sd : SalesItem) (pats : List String) : List String → SalesItem × List String
  | [] => (sd, pats)
  | l :: ls => processLines (stepLine sd pats l).1 (stepLine sd pats l).2 ls

/-- The trimmed non-empty lines of one item's content:
`[line.strip() for line in item_content.split('\n') if line.strip()]`. -/
def pyLines (c : String) : List String :=
  ((splitChar '\n' c.data).map (fun l => (⟨listStrip l⟩ : String))).filter (fun l => l ≠ (""))

/-- The product-name candidate filter of the source (a line not identified by
the classifier, not purely numeric, not a `digits[.,]digits` token, at least 5
characters, and free of both label substrings). -/
def isCandidate (pats : List String) (l : String) : Bool :=
  !(pats.contains l) && !(pyIsdigit l) && !(matchDecimalToken l.data) &&
    decide (5 ≤ l.length) && !(strContains l uktzedLabel) && !(strContains l barcodeLabel)

/-- Python `max(candidates, key=len)`: the first candidate of maximal length
(a later element replaces the current best only when strictly longer). -/
def pyMaxByLen : List String → Option String
  | [] => none
  | x :: xs =>
    match pyMaxByLen xs with
    | none => some x
    | some m => if m.length > x.length then some m else some x

/-- Product-name selection: longest candidate, else fall back to the first
line not identified by the classifier. -/
def chooseName (sd : SalesItem) (pats : List String) (lines : List String) : SalesItem :=
  match pyMaxByLen (lines.filter (fun l => isCandidate pats l)) with
  | some m => { sd with product_name := m }
  | none =>
    match lines.find? (fun l => !(pats.contains l)) with
    | some l => { sd with product_name := l }
    | none => sd

/-! ## Exact numeric model for Python floats -/

/-- An exact fraction `num / den` (`den` intended positive), kept unreduced so
that all arithmetic below reduces in the kernel. -/
structure Dec where
  num : Int
  den : Nat
deriving DecidableEq, Repr

/-- The rational value of a `Dec`. -/
def Dec.toRat (x : Dec) : ℚ := (x.num : ℚ) / (x.den : ℚ)

/-- Exact product of two fractions. -/
def dmul (x y : Dec) : Dec := ⟨x.num * y.num, x.den * y.den⟩

/-- Exact quotient of two fractions (sign moved to the numerator; junk with a
zero denominator when `y` is zero, which every caller excludes first). -/
def ddiv (x y : Dec) : Dec :=
  if y.num < 0 then ⟨-(x.num * (y.den : Int)), x.den * y.num.natAbs⟩
  else ⟨x.num * (y.den : Int), x.den * y.num.natAbs⟩

/-- Round a fraction (positive denominator) to the nearest integer, ties to
even — the rounding of Python float formatting, on the exact value. -/
def roundHalfEven (x : Dec) : Int :=
  let f := x.num.fdiv (x.den : Int)
  let r2 := 2 * (x.num - f * (x.den : Int))
  if r2 < (x.den : Int) then f
  else if (x.den : Int) < r2 then f + 1
  else if f % 2 = 0 then f else f + 1

/-- Decimal digit character. -/
def digitChar (n : Nat) : Char := Char.ofNat (48 + n)

/-- Digits of `n`, least significant first, with structural fuel. -/
def natDigitsAux : Nat → Nat → List Char
  | 0, _ => []
  | fuel + 1, n => if n < 10 then [digitChar n] else digitChar (n % 10) :: natDigitsAux fuel (n / 10)

/-- Decimal rendering of a natural number. -/
def natToStr (n : Nat) : String := ⟨(natDigitsAux (n + 1) n).reverse⟩

/-- Python `f"{x:.2f}"` on the exact value of `x`: round half-to-even at two
decimals and print with exactly two fractional digits. -/
def formatFixed2 (x : Dec) : String :=
  let n := roundHalfEven ⟨x.num * 100, x.den⟩
  let a := n.natAbs
  (if n < 0 then ("-") else ("")) ++ natToStr (a / 100) ++ (".") ++
    (if a % 100 < 10 then ("0") else ("")) ++ natToStr (a % 100)

/-- Plain decimal literal body: `digits`, `digits.digits`, `digits.` or
`.digits` (at least one digit overall), the fragment of Python `float` syntax
the receipts use. -/
def parsePyFloatCore (l : List Char) : Option Dec :=
  let ip := l.takeWhile Char.isDigit
  match l.dropWhile Char.isDigit with
  | [] => if ip.isEmpty then none else some ⟨(digitsVal ip : Int), 1⟩
  | c :: t =>
    if c = '.' then
      (if ip.isEmpty && t.isEmpty then none
       else if t.all Char.isDigit then
         some ⟨(digitsVal ip : Int) * (10 ^ t.length : Nat) + (digitsVal t : Int), 10 ^ t.length⟩
       else none)
    else none

/-- Python `float(s)` on the decimal fragment: optional surrounding
whitespace, optional sign, decimal literal.  `none` models `ValueError`. -/
def pyFloat? (s : String) : Option Dec :=
  match listStrip s.data with
  | '-' :: t => (parsePyFloatCore t).map (fun x => ⟨-x.num, x.den⟩)
  | '+' :: t => parsePyFloatCore t
  | t => parsePyFloatCore t

/-- Worker for `pyInt?` on the stripped character list. -/
def pyIntAux : List Char → Option Int
  | [] => none
  | c :: cs =>
    if c = '-' then
      (if !cs.isEmpty && cs.all Char.isDigit then some (-(digitsVal cs : Int)) else none)
    else if c = '+' then
      (if !cs.isEmpty && cs.all Char.isDigit then some ((digitsVal cs : Int)) else none)
    else if (c :: cs).all Char.isDigit then some ((digitsVal (c :: cs) : Int)) else none

/-- Python `int(s)` on the decimal fragment: optional surrounding whitespace,
optional sign, non-empty digit run. -/
def pyInt? (s : String) : Option Int := pyIntAux (listStrip s.data)

/-! ## Price derivation (`_calculate_missing_prices`) -/

/-- The two Python exception types caught by `_calculate_missing_prices`. -/
inductive PyExc where
  | valueError : PyExc
  | zeroDivisionError : PyExc
deriving DecidableEq, Repr

/-- The body of the `try:` block of `_calculate_missing_prices`: derive the
missing one of `unit_price`/`total_price`; `float` failures raise
`ValueError` and a zero quantity in the division branch raises
`ZeroDivisionError`.  An exception escapes before any field is written, so the
record is unchanged on the error path. -/
def calcBody (sd : SalesItem) : Except PyExc SalesItem :=
  if sd.unit_price = ("") ∧ sd.total_price ≠ ("") ∧ sd.quantity ≠ ("") ∧ sd.quantity ≠ ("1") then
    match pyFloat? (commaToDot sd.total_price) with
    | none => Except.error PyExc.valueError
    | some t =>
      match pyFloat? sd.quantity with
      | none => Except.error PyExc.valueError
      | some q =>
        if q.num = 0 then Except.error PyExc.zeroDivisionError
        else Except.ok { sd with unit_price := formatFixed2 (ddiv t q) }
  else if sd.unit_price ≠ ("") ∧ sd.total_price = ("") ∧ sd.quantity ≠ ("") then
    match pyFloat? (commaToDot sd.unit_price) with
    | none => Except.error PyExc.valueError
    | some u =>
      match pyFloat? sd.quantity with
      | none => Except.error PyExc.valueError
      | some q => Except.ok { sd with total_price := formatFixed2 (dmul u q) }
  else Except.ok sd

/-- `_calculate_missing_prices`: run the body and catch exactly
`ValueError` and `ZeroDivisionError` (the `except` clause only logs). -/
def _calculate_missing_prices (sd : SalesItem) : SalesItem :=
  match calcBody sd with
  | Except.ok r => r
  | Except.error PyExc.valueError => sd
  | Except.error PyExc.zeroDivisionError => sd

/-- `_calculate_missing_prices` in the exception-tracking semantics: the
caught exceptions yield a normal return, so the result is always `ok`. -/
def _calculate_missing_pricesE (sd : SalesItem) : Except PyExc SalesItem :=
  match calcBody sd with
  | Except.ok r => Except.ok r
  | Except.error PyExc.valueError => Except.ok sd
  | Except.error PyExc.zeroDivisionError => Except.ok sd

/-! ## Item parser (`_extract_single_item_sales_data`) -/

/-- The `identified_patterns` set after the classifier pass over one item's
lines (modelled as the list of matched lines, queried by membership). -/
def identified_patterns (item_content : String) (item_index : Nat) : List String :=
  (processLines (initItem item_index) [] (pyLines item_content)).2

/-- The `candidate_lines` pool of the product-name heuristic. -/
def candidate_lines (item_content : String) (item_index : Nat) : List String :=
  (pyLines item_content).filter
    (fun l => isCandidate (processLines (initItem item_index) [] (pyLines item_content)).2 l)

/-- The full `sales_data` record built for one item, before the final
retention test: classifier pass, product-name selection, price derivation. -/
def _extract_single_item_record (item_content : String) (item_index : Nat) : SalesItem :=
  _calculate_missing_prices
    (chooseName (processLines (initItem item_index) [] (pyLines item_content)).1
      (processLines (initItem item_index) [] (pyLines item_content)).2
      (pyLines item_content))

/-- `_extract_single_item_sales_data`: keep the record only if one of
`product_name`/`uktzed`/`barcode` is non-empty, else return `None`. -/
def _extract_single_item_sales_data (item_content : String) (item_index : Nat) : Option SalesItem :=
  if (_extract_single_item_record item_content item_index).product_name ≠ ("") ∨
     (_extract_single_item_record item_content item_index).uktzed ≠ ("") ∨
     (_extract_single_item_record item_content item_index).barcode ≠ ("") then
    some (_extract_single_item_record item_content item_index)
  else none

/-- The exception-tracking variant of the item parser: only
`_calculate_missing_prices` contains fallible operations, and it catches them. -/
def _extract_single_item_sales_dataE (item_content : String) (item_index : Nat) :
    Except PyExc (Option SalesItem) := do
  let sd ← _calculate_missing_pricesE
    (chooseName (processLines (initItem item_index) [] (pyLines item_content)).1
      (processLines (initItem item_index) [] (pyLines item_content)).2
      (pyLines item_content))
  pure (if sd.product_name ≠ ("") ∨ sd.uktzed ≠ ("") ∨ sd.barcode ≠ ("") then some sd else none)

/-! ## Receipt parser (`extract_sales_data`) -/

/-- The item segments of a raw content block: empty content yields no
segments, content with the sentinel splits on it, otherwise the whole block is
one segment. -/
def itemSegments (content : String) : List String :=
  if content = ("") then []
  else if strContains content itemSeparator = true then
    (splitOnSub itemSeparator.data content.data).map (fun l => (⟨l⟩ : String))
  else [content]

/-- The `for i, item_content in enumerate(items_content)` loop: each segment
is stripped and parsed with its segment index; `None` results are dropped. -/
def extractLoop (i : Nat) : List String → List SalesItem
  | [] => []
  | c :: rest =>
    match _extract_single_item_sales_data (pyStrip c) i with
    | some sd => sd :: extractLoop (i + 1) rest
    | none => extractLoop (i + 1) rest

/-- `extract_sales_data`. -/
def extract_sales_data (content : String) : List SalesItem :=
  extractLoop 0 (itemSegments content)

/-- The receipt-parser loop in the exception-tracking semantics. -/
def extractLoopE (i : Nat) : List String → Except PyExc (List SalesItem)
  | [] => Except.ok []
  | c :: rest => do
    let r ← _extract_single_item_sales_dataE (pyStrip c) i
    let rs ← extractLoopE (i + 1) rest
    match r with
    | some sd => pure (sd :: rs)
    | none => pure rs

/-- `extract_sales_data` in the exception-tracking semantics. -/
def extract_sales_dataE (content : String) : Except PyExc (List SalesItem) :=
  extractLoopE 0 (itemSegments content)

/-! ## The store (`DataManager`) -/

/-- One persisted `ReceiptRecord`, as written by `DataManager.save_data`. -/
structure Entry where
  timestamp : String
  url : String
  raw_content : String
  sales_data : List SalesItem
  item_count : Nat
deriving DecidableEq, Repr

/-- The entry `save_data` builds for one fetch (`datetime.now()` passed in as
`now`; `sales_data` is always a list, so `item_count` is its length). -/
def mkEntry (now url content : String) : Entry :=
  { timestamp := now, url := url, raw_content := content,
    sales_data := extract_sales_data content,
    item_count := (extract_sales_data content).length }

/-- `DataManager.save_data`: append the new entry, then keep only the most
recent 1000 entries (`data[-1000:]`).  The boolean is the success result of
the write (always `True` in the pure model, which does not model I/O
failure). -/
def save_data (data : List Entry) (url content now : String) : Bool × List Entry :=
  (true,
    if (data ++ [mkEntry now url content]).length > 1000 then
      (data ++ [mkEntry now url content]).drop ((data ++ [mkEntry now url content]).length - 1000)
    else data ++ [mkEntry now url content])

/-- `DataManager.load_data`: return the whole persisted history. -/
def load_data (data : List Entry) : List Entry := data

/-- `DataManager.get_last_content`: `raw_content` of the last entry, `None`
when the history is empty. -/
def get_last_content (data : List Entry) : Option String :=
  data.getLast?.map Entry.raw_content

/-- One dedup-guarded save of the `collect_and_save_data` loop: fetch result
`content` is persisted only when it differs from the most recently stored
`raw_content` (a `None` last content compares unequal to any string). -/
def collect_step (data : List Entry) (url content now : String) : List Entry :=
  if get_last_content data = some content then data
  else (save_data data url content now).2

/-! ## Concrete fixtures used by witness theorems -/

/-- A placeholder stored entry (for concrete store states). -/
def sampleEntry : Entry :=
  { timestamp := "", url := "", raw_content := "", sales_data := [], item_count := 0 }

/-- A record whose `unit_price` is non-numeric: its price derivation raises
`ValueError` inside the `try` block. -/
def sdBad : SalesItem :=
  { product_name := "x", uktzed := "", barcode := "", quantity := "1",
    unit_price := "abc", total_price := "", currency := "UAH",
    price_details := "", price_breakdown := "", item_index := 0 }

/-- The record parsed from segment 1 of a two-segment content whose segment 0
is dropped (an index gap). -/
def gapItem : SalesItem :=
  { product_name := "hello world", uktzed := "", barcode := "", quantity := "1",
    unit_price := "", total_price := "", currency := "UAH",
    price_details := "", price_breakdown := "", item_index := 1 }

/-- The record parsed from the single free-text content `"hello world"`. -/
def helloItem : SalesItem :=
  { product_name := "hello world", uktzed := "", barcode := "", quantity := "1",
    unit_price := "", total_price := "", currency := "UAH",
    price_details := "", price_breakdown := "", item_index := 0 }

/-- A record with only `unit_price` and a quantity of 2, entering the
total-price derivation branch. -/
def sdUnitOnly : SalesItem :=
  { product_name := "x", uktzed := "", barcode := "", quantity := "2",
    unit_price := "50.00", total_price := "", currency := "UAH",
    price_details := "", price_breakdown := "", item_index := 0 }

/-! ## Helper lemmas -/

theorem calcBody_ok_fields (sd r : SalesItem) (h : calcBody sd = Except.ok r) :
    r.product_name = sd.product_name ∧
    r.uktzed = sd.uktzed ∧
    r.barcode = sd.barcode ∧
    r.quantity = sd.quantity ∧
    r.price_details = sd.price_details ∧
    r.price_breakdown = sd.price_breakdown ∧
    r.currency = sd.currency ∧
    r.item_index = sd.item_index := by
  unfold calcBody at h
  repeat' split at h
  all_goals simp_all
  all_goals (subst h; simp)

theorem calc_preserves (sd : SalesItem) :
    (_calculate_missing_prices sd).product_name = sd.product_name ∧
    (_calculate_missing_prices sd).uktzed = sd.uktzed ∧
    (_calculate_missing_prices sd).barcode = sd.barcode ∧
    (_calculate_missing_prices sd).quantity = sd.quantity ∧
    (_calculate_missing_prices sd).price_details = sd.price_details ∧
    (_calculate_missing_prices sd).price_breakdown = sd.price_breakdown ∧
    (_calculate_missing_prices sd).currency = sd.currency ∧
    (_calculate_missing_prices sd).item_index = sd.item_index := by
  unfold _calculate_missing_prices
  cases hcb : calcBody sd with
  | ok r => exact calcBody_ok_fields sd r hcb
  | error e => cases e <;> simp

theorem chooseName_preserves (sd : SalesItem) (pats lines : List String) :
    (chooseName sd pats lines).uktzed = sd.uktzed ∧
    (chooseName sd pats lines).barcode = sd.barcode ∧
    (chooseName sd pats lines).quantity = sd.quantity ∧
    (chooseName sd pats lines).unit_price = sd.unit_price ∧
    (chooseName sd pats lines).total_price = sd.total_price ∧
    (chooseName sd pats lines).price_details = sd.price_details ∧
    (chooseName sd pats lines).price_breakdown = sd.price_breakdown ∧
    (chooseName sd pats lines).currency = sd.currency ∧
    (chooseName sd pats lines).item_index = sd.item_index := by
  unfold chooseName
  repeat' split
  all_goals simp_all

theorem stepLine_item_index (sd : SalesItem) (pats : List String) (l : String) :
    (stepLine sd pats l).1.item_index = sd.item_index := by
  unfold stepLine starUpdate breakdownUpdate
  repeat' split
  all_goals simp_all

theorem searchQty_digits :
    ∀ (l : List Char) (q : String), searchQty l = some q →
      q ≠ ("") ∧ q.data.all Char.isDigit = true := by
  intro l
  induction l with
  | nil => intro q h; simp [searchQty] at h
  | cons c rest ih =>
    intro q h
    by_cases hc : Char.isDigit c = true
    · rw [searchQty, if_pos hc] at h
      split at h
      · injection h with h2
        subst h2
        constructor
        · simp [List.takeWhile_cons, hc, String.ext_iff]
        · simp [List.all_takeWhile]
      · exact ih q h
    · rw [searchQty, if_neg hc] at h
      exact ih q h

theorem stepLine_quantity (sd : SalesItem) (pats : List String) (l : String) :
    (stepLine sd pats l).1.quantity = sd.quantity ∨
    ((stepLine sd pats l).1.quantity ≠ ("") ∧
      (stepLine sd pats l).1.quantity.data.all Char.isDigit = true) := by
  unfold stepLine starUpdate breakdownUpdate
  repeat' split
  all_goals first
    | exact Or.inl rfl
    | exact Or.inr (searchQty_digits _ _ (by assumption))

theorem processLines_item_index (ls : List String) :
    ∀ (sd : SalesItem) (pats : List String),
      (processLines sd pats ls).1.item_index = sd.item_index := by
  induction ls with
  | nil => intro sd pats; rfl
  | cons l ls ih =>
    intro sd pats
    rw [processLines, ih, stepLine_item_index]

theorem processLines_quantity (ls : List String) :
    ∀ (sd : SalesItem) (pats : List String),
      sd.quantity ≠ ("") → sd.quantity.data.all Char.isDigit = true →
      (processLines sd pats ls).1.quantity ≠ ("") ∧
        (processLines sd pats ls).1.quantity.data.all Char.isDigit = true := by
  induction ls with
  | nil => intro sd pats h1 h2; exact ⟨h1, h2⟩
  | cons l ls ih =>
    intro sd pats h1 h2
    rw [processLines]
    rcases stepLine_quantity sd pats l with h | ⟨h1', h2'⟩
    · exact ih _ _ (h ▸ h1) (h ▸ h2)
    · exact ih _ _ h1' h2'

theorem record_item_index (c : String) (i : Nat) :
    (_extract_single_item_record c i).item_index = i := by
  unfold _extract_single_item_record
  rw [(calc_preserves _).2.2.2.2.2.2.2, (chooseName_preserves _ _ _).2.2.2.2.2.2.2.2,
    processLines_item_index]
  rfl

theorem record_quantity (c : String) (i : Nat) :
    (_extract_single_item_record c i).quantity ≠ ("") ∧
      (_extract_single_item_record c i).quantity.data.all Char.isDigit = true := by
  unfold _extract_single_item_record
  rw [(calc_preserves _).2.2.2.1, (chooseName_preserves _ _ _).2.2.1]
  exact processLines_quantity _ _ _ (by simp [initItem, String.ext_iff]) (by simp [initItem])

theorem parse_some_eq (c : String) (i : Nat) (s : SalesItem)
    (h : _extract_single_item_sales_data c i = some s) :
    s = _extract_single_item_record c i := by
  unfold _extract_single_item_sales_data at h
  split at h
  · exact (Option.some.injEq _ _).mp h |>.symm
  · exact absurd h (by simp)

theorem extractLoop_mem (ls : List String) :
    ∀ (i : Nat) (s : SalesItem), s ∈ extractLoop i ls →
      i ≤ s.item_index ∧
      ∃ seg, ls[s.item_index - i]? = some seg ∧
        _extract_single_item_sales_data (pyStrip seg) s.item_index = some s := by
  induction ls with
  | nil => intro i s h; simp [extractLoop] at h
  | cons c rest ih =>
    intro i s h
    rw [extractLoop] at h
    cases hp : _extract_single_item_sales_data (pyStrip c) i with
    | some sd =>
      rw [hp] at h
      rcases List.mem_cons.mp h with rfl | hmem
      · have hidx : s.item_index = i := by
          rw [parse_some_eq _ _ _ hp]; exact record_item_index _ _
        refine ⟨le_of_eq hidx.symm, c, ?_, ?_⟩
        · rw [hidx]; simp
        · rw [hidx]; exact hp
      · rcases ih (i + 1) s hmem with ⟨hle, seg, hseg, hps⟩
        refine ⟨by omega, seg, ?_, hps⟩
        have : s.item_index - i = (s.item_index - (i + 1)) + 1 := by omega
        rw [this, List.getElem?_cons_succ]
        exact hseg
    | none =>
      rw [hp] at h
      rcases ih (i + 1) s h with ⟨hle, seg, hseg, hps⟩
      refine ⟨by omega, seg, ?_, hps⟩
      have : s.item_index - i = (s.item_index - (i + 1)) + 1 := by omega
      rw [this, List.getElem?_cons_succ]
      exact hseg

theorem extractLoop_pairwise (ls : List String) :
    ∀ i, List.Pairwise (fun a b => a.item_index < b.item_index) (extractLoop i ls) := by
  induction ls with
  | nil => intro i; simp [extractLoop]
  | cons c rest ih =>
    intro i
    rw [extractLoop]
    cases hp : _extract_single_item_sales_data (pyStrip c) i with
    | some sd =>
      refine List.Pairwise.cons ?_ (ih (i + 1))
      intro b hb
      have h1 := (extractLoop_mem rest (i + 1) b hb).1
      have h2 : sd.item_index = i := by
        rw [parse_some_eq _ _ _ hp]; exact record_item_index _ _
      omega
    | none => exact ih (i + 1)

theorem save_len (data : List Entry) (url content now : String) :
    (save_data data url content now).2.length = min (data.length + 1) 1000 := by
  unfold save_data
  split
  · rename_i hgt
    simp only [List.length_drop, List.length_append, List.length_cons, List.length_nil] at hgt ⊢
    omega
  · rename_i hle
    simp only [List.length_append, List.length_cons, List.length_nil] at hle ⊢
    omega

theorem save_last (data : List Entry) (url content now : String) :
    get_last_content (save_data data url content now).2 = some content := by
  unfold save_data get_last_content
  split
  · rename_i hgt
    rw [List.drop_append_eq_append_drop]
    have h0 : (data ++ [mkEntry now url content]).length - 1000 - data.length = 0 := by
      simp only [List.length_append, List.length_cons, List.length_nil]
      omega
    rw [h0]
    simp [List.getLast?_concat, mkEntry]
  · simp [List.getLast?_concat, mkEntry]

theorem pyMaxByLen_some (x : String) (xs : List String) :
    ∃ m, pyMaxByLen (x :: xs) = some m := by
  rw [pyMaxByLen]
  cases pyMaxByLen xs with
  | none => exact ⟨x, rfl⟩
  | some b =>
    by_cases hl : b.length > x.length
    · exact ⟨b, show (if b.length > x.length then some b else some x) = some b by rw [if_pos hl]⟩
    · exact ⟨x, show (if b.length > x.length then some b else some x) = some x by rw [if_neg hl]⟩

theorem pyMaxByLen_spec :
    ∀ (l : List String) (m : String), pyMaxByLen l = some m →
      (∃ pre suf, l = pre ++ m :: suf ∧ ∀ x ∈ pre, x.length < m.length) ∧
      ∀ x ∈ l, x.length ≤ m.length := by
  intro l
  induction l with
  | nil => intro m h; simp [pyMaxByLen] at h
  | cons x xs ih =>
    intro m h
    rw [pyMaxByLen] at h
    cases hx : pyMaxByLen xs with
    | none =>
      rw [hx] at h
      injection h with h2
      subst h2
      have hxs : xs = [] := by
        cases xs with
        | nil => rfl
        | cons y ys =>
          rcases pyMaxByLen_some y ys with ⟨m2, hm2⟩
          rw [hm2] at hx
          cases hx
      subst hxs
      exact ⟨⟨[], [], by simp, by simp⟩, by simp⟩
    | some b =>
      rw [hx] at h
      replace h : (if b.length > x.length then some b else some x) = some m := h
      rcases ih b hx with ⟨⟨pre, suf, hsplit, hpre⟩, hall⟩
      by_cases hlen : b.length > x.length
      · rw [if_pos hlen] at h
        injection h with h2
        subst h2
        refine ⟨⟨x :: pre, suf, by rw [hsplit]; rfl, ?_⟩, ?_⟩
        · intro y hy
          rcases List.mem_cons.mp hy with rfl | hy2
          · exact hlen
          · exact hpre y hy2
        · intro y hy
          rcases List.mem_cons.mp hy with rfl | hy2
          · omega
          · exact hall y hy2
      · rw [if_neg hlen] at h
        injection h with h2
        subst h2
        refine ⟨⟨[], xs, by simp, by simp⟩, ?_⟩
        intro y hy
        rcases List.mem_cons.mp hy with rfl | hy2
        · exact le_refl _
        · exact le_trans (hall y hy2) (by omega)

theorem processLines_append (ls1 ls2 : List String) :
    ∀ (sd : SalesItem) (pats : List String),
      processLines sd pats (ls1 ++ ls2) =
        processLines (processLines sd pats ls1).1 (processLines sd pats ls1).2 ls2 := by
  induction ls1 with
  | nil => intro sd pats; rfl
  | cons l ls ih =>
    intro sd pats
    rw [List.cons_append, processLines, ih]
    rfl

theorem stepLine_uktzed_set (sd : SalesItem) (pats : List String) (l : String)
    (h : strContains l uktzedLabel = true) :
    (stepLine sd pats l).1.uktzed = stripLabel uktzedLabel l := by
  unfold stepLine
  rw [if_pos h]

theorem stepLine_barcode_set (sd : SalesItem) (pats : List String) (l : String)
    (h1 : ¬ strContains l uktzedLabel = true) (h2 : strContains l barcodeLabel = true) :
    (stepLine sd pats l).1.barcode = stripLabel barcodeLabel l := by
  unfold stepLine
  rw [if_neg h1, if_pos h2]

theorem stepLine_price_details_set (sd : SalesItem) (pats : List String) (l : String)
    (h1 : ¬ strContains l uktzedLabel = true) (h2 : ¬ strContains l barcodeLabel = true)
    (h3 : (strContains l ("*") && lineHasDigit l && strContains l shtToken) = true) :
    (stepLine sd pats l).1.price_details = l := by
  unfold stepLine
  rw [if_neg h1, if_neg h2, if_pos h3]
  unfold starUpdate
  repeat' split
  all_goals rfl

theorem stepLine_price_breakdown_set (sd : SalesItem) (pats : List String) (l : String)
    (h1 : ¬ strContains l uktzedLabel = true) (h2 : ¬ strContains l barcodeLabel = true)
    (h3 : ¬ (strContains l ("*") && lineHasDigit l && strContains l shtToken) = true)
    (h4 : (taxMarkers.any (fun m => strContains l m) && lineHasDigit l) = true) :
    (stepLine sd pats l).1.price_breakdown = l := by
  unfold stepLine
  rw [if_neg h1, if_neg h2, if_neg h3, if_pos h4]
  unfold breakdownUpdate
  repeat' split
  all_goals rfl

theorem stepLine_bare_price (sd : SalesItem) (pats : List String) (l : String)
    (h1 : ¬ strContains l uktzedLabel = true) (h2 : ¬ strContains l barcodeLabel = true)
    (h3 : ¬ (strContains l ("*") && lineHasDigit l && strContains l shtToken) = true)
    (h4 : ¬ (taxMarkers.any (fun m => strContains l m) && lineHasDigit l) = true)
    (h5 : isBarePriceLine l = true) :
    (stepLine sd pats l).1.total_price =
      (if sd.total_price = ("") then pyStrip l else sd.total_price) := by
  unfold stepLine
  rw [if_neg h1, if_neg h2, if_neg h3, if_neg h4, if_pos h5]
  by_cases ht : sd.total_price = ("")
  · rw [if_pos ht, if_pos ht]
  · rw [if_neg ht, if_neg ht]

theorem calcE_ok (sd : SalesItem) :
    _calculate_missing_pricesE sd = Except.ok (_calculate_missing_prices sd) := by
  unfold _calculate_missing_pricesE _calculate_missing_prices
  cases calcBody sd with
  | ok r => rfl
  | error e => cases e <;> rfl

theorem itemE_ok (c : String) (i : Nat) :
    _extract_single_item_sales_dataE c i = Except.ok (_extract_single_item_sales_data c i) := by
  unfold _extract_single_item_sales_dataE _extract_single_item_sales_data
    _extract_single_item_record
  rw [calcE_ok]
  rfl

theorem extractLoopE_ok (ls : List String) :
    ∀ i, extractLoopE i ls = Except.ok (extractLoop i ls) := by
  induction ls with
  | nil => intro i; rfl
  | cons c rest ih =>
    intro i
    rw [extractLoopE, extractLoop, itemE_ok, ih]
    cases _extract_single_item_sales_data (pyStrip c) i <;> rfl

theorem space_not_digit {c : Char} (h : isSpaceChar c = true) : Char.isDigit c = false := by
  simp only [isSpaceChar, Bool.or_eq_true, decide_eq_true_eq] at h
  rcases h with ((((h | h) | h) | h) | h) | h <;> subst h <;> rfl

theorem dropWhile_space_of_digits (l : List Char) (hd : l.all Char.isDigit = true) :
    l.dropWhile isSpaceChar = l := by
  cases l with
  | nil => rfl
  | cons c t =>
    have hc : Char.isDigit c = true := by
      simp only [List.all_cons, Bool.and_eq_true] at hd
      exact hd.1
    have hs : isSpaceChar c = false := by
      cases hsp : isSpaceChar c
      · rfl
      · rw [space_not_digit hsp] at hc; cases hc
    simp [List.dropWhile_cons, hs]

theorem listStrip_digits (l : List Char) (hd : l.all Char.isDigit = true) :
    listStrip l = l := by
  unfold listStrip
  rw [dropWhile_space_of_digits l hd,
    dropWhile_space_of_digits l.reverse (by rw [List.all_reverse]; exact hd),
    List.reverse_reverse]

theorem pyInt?_digits (s : String) (h1 : s ≠ ("")) (h2 : s.data.all Char.isDigit = true) :
    ∃ n, pyInt? s = some n := by
  unfold pyInt?
  rw [listStrip_digits _ h2]
  cases hsd : s.data with
  | nil =>
    exact absurd (by cases s; simp only at hsd; rw [hsd]) h1
  | cons c cs =>
    have hc : Char.isDigit c = true := by
      rw [hsd] at h2
      simp only [List.all_cons, Bool.and_eq_true] at h2
      exact h2.1
    have hcm : ¬ c = '-' := fun e => by subst e; exact absurd hc (by decide)
    have hcp : ¬ c = '+' := fun e => by subst e; exact absurd hc (by decide)
    rw [pyIntAux, if_neg hcm, if_neg hcp, if_pos (hsd ▸ h2)]
    exact ⟨_, rfl⟩

/-! ## Claim theorems -/

/-- C1, counterexample: `DataManager.save_data` itself performs no
deduplication — two successive calls with identical `raw_content` on an empty
store append two records, both holding that content, so the second call is
not a no-op. -/
theorem save_data_no_dedup_counterexample :
    ((save_data (save_data [] ("u") ("x") ("t1")).2 ("u") ("x") ("t2")).2).length = 2 ∧
    ((save_data (save_data [] ("u") ("x") ("t1")).2 ("u") ("x") ("t2")).2).map Entry.raw_content
      = [("x"), ("x")] :=
  ⟨by decide, by decide⟩

/-- C1, amended: the dedup lives in the collection loop
(`collect_and_save_data`), not in `save_data`: the loop compares the fetched
content with `get_last_content()` and only then calls `save_data`.  That
guarded step is idempotent — running it twice with identical content changes
the store exactly once — and, when the content is new and the store is below
capacity, it writes exactly one new record. -/
theorem collect_step_dedup_idempotent (data : List Entry) (url content now now2 : String) :
    collect_step (collect_step data url content now) url content now2
      = collect_step data url content now ∧
    (get_last_content data ≠ some content → data.length < 1000 →
      (collect_step data url content now).length = data.length + 1) := by
  constructor
  · by_cases h : get_last_content data = some content
    · have h1 : collect_step data url content now = data := by
        rw [collect_step, if_pos h]
      rw [h1, collect_step, if_pos h]
    · have h1 : collect_step data url content now = (save_data data url content now).2 := by
        rw [collect_step, if_neg h]
      rw [h1, collect_step, if_pos (save_last data url content now)]
  · intro hne hlen
    rw [collect_step, if_neg hne, save_len]
    omega

/-- C1, witness for the amended theorem at a concrete store. -/
theorem collect_step_dedup_idempotent_witness :
    get_last_content [] ≠ some ("x") ∧ ([] : List Entry).length < 1000 ∧
    (collect_step [] ("u") ("x") ("t1")).length = ([] : List Entry).length + 1 :=
  ⟨by decide, by decide,
    (collect_step_dedup_idempotent [] ("u") ("x") ("t1") ("t2")).2 (by decide) (by decide)⟩

/-- C3, counterexample: for an item whose only line is `"42"` the parser does
not return `None` — the fallback branch takes the first line not identified by
the classifier as product name (the bare-price rule does not add its line to
`identified_patterns`), so the record is retained. -/
theorem bare_number_item_counterexample :
    _extract_single_item_sales_data ("42") 0 ≠ none := by decide

/-- C3, amended: an item whose only line is `"42"` yields a retained record
with fallback `product_name = "42"` and bare-price `total_price = "42"`. -/
theorem bare_number_item_amended :
    _extract_single_item_sales_data ("42") 0 =
      some { product_name := "42", uktzed := "", barcode := "", quantity := "1",
             unit_price := "", total_price := "42", currency := "UAH",
             price_details := "", price_breakdown := "", item_index := 0 } := by decide

/-- C5: appending always succeeds, leaves at most 1000 records, and on a
store of exactly 1000 records evicts exactly the oldest entry, leaving
exactly 1000 in the original relative order followed by the new entry. -/
theorem save_data_bounded_fifo (data : List Entry) (url content now : String) :
    (save_data data url content now).1 = true ∧
    (save_data data url content now).2.length ≤ 1000 ∧
    (data.length = 1000 →
      (save_data data url content now).2 = data.tail ++ [mkEntry now url content] ∧
      (save_data data url content now).2.length = 1000) := by
  refine ⟨rfl, ?_, ?_⟩
  · rw [save_len]; omega
  · intro h1000
    constructor
    · unfold save_data
      rw [if_pos (by simp only [List.length_append, List.length_cons, List.length_nil]; omega)]
      rw [List.drop_append_eq_append_drop]
      have e1 : (data ++ [mkEntry now url content]).length - 1000 = 1 := by
        simp only [List.length_append, List.length_cons, List.length_nil]
        omega
      rw [e1]
      have e2 : (1 : Nat) - data.length = 0 := by omega
      rw [e2, List.drop_one]
      simp
    · rw [save_len]; omega

/-- C5, witness at a concrete store of exactly 1000 records. -/
theorem save_data_bounded_fifo_witness :
    (List.replicate 1000 sampleEntry).length = 1000 ∧
    (save_data (List.replicate 1000 sampleEntry) ("u") ("c") ("t")).2
        = (List.replicate 1000 sampleEntry).tail ++ [mkEntry ("t") ("u") ("c")] ∧
    (save_data (List.replicate 1000 sampleEntry) ("u") ("c") ("t")).2.length = 1000 :=
  ⟨by rw [List.length_replicate],
    ((save_data_bounded_fifo (List.replicate 1000 sampleEntry) ("u") ("c") ("t")).2.2
      (by rw [List.length_replicate])).1,
    ((save_data_bounded_fifo (List.replicate 1000 sampleEntry) ("u") ("c") ("t")).2.2
      (by rw [List.length_replicate])).2⟩

/-- C6: the parsers cannot raise: in the exception-tracking semantics both
the receipt parser and the item parser return `ok` on every input, because
the only fallible operations (float parsing and division inside
`_calculate_missing_prices`) are wrapped in a catch of `ValueError` and
`ZeroDivisionError` that leaves the record unchanged. -/
theorem parser_never_raises :
    (∀ content, extract_sales_dataE content = Except.ok (extract_sales_data content)) ∧
    (∀ item_content i, _extract_single_item_sales_dataE item_content i
        = Except.ok (_extract_single_item_sales_data item_content i)) ∧
    (∀ (sd : SalesItem) (e : PyExc), calcBody sd = Except.error e →
      _calculate_missing_prices sd = sd) := by
  refine ⟨?_, itemE_ok, ?_⟩
  · intro content
    exact extractLoopE_ok _ _
  · intro sd e h
    unfold _calculate_missing_prices
    rw [h]
    cases e <;> rfl

/-- C6, witness: a concrete record whose derivation raises (and is caught,
leaving the record unchanged). -/
theorem parser_never_raises_witness :
    calcBody sdBad = Except.error PyExc.valueError ∧
    _calculate_missing_prices sdBad = sdBad :=
  ⟨by rfl, parser_never_raises.2.2 sdBad PyExc.valueError (by rfl)⟩

/-- C7: after any append, the record it created is the last one returned by
`load_data`, and its `raw_content` is exactly the appended content. -/
theorem append_load_roundtrip (data : List Entry) (url content now : String) :
    (save_data data url content now).1 = true ∧
    ∃ e : Entry, (load_data (save_data data url content now).2).getLast? = some e ∧
      e.raw_content = content := by
  refine ⟨rfl, ?_⟩
  have h := save_last data url content now
  unfold get_last_content at h
  unfold load_data
  cases hg : (save_data data url content now).2.getLast? with
  | none => rw [hg] at h; cases h
  | some e =>
    rw [hg] at h
    refine ⟨e, rfl, ?_⟩
    simpa using h

/-- C8: the receipt parser keeps items in segment order (their segment
indices are strictly increasing along the output) and every returned item's
`item_index` is the zero-based position of its originating segment in the
split input — the segment at that position re-parses to exactly this item —
so dropped segments leave gaps. -/
theorem receipt_parser_item_index (content : String) (s : SalesItem)
    (h : s ∈ extract_sales_data content) :
    List.Pairwise (fun a b => a.item_index < b.item_index) (extract_sales_data content) ∧
    ∃ seg, (itemSegments content)[s.item_index]? = some seg ∧
      _extract_single_item_sales_data (pyStrip seg) s.item_index = some s := by
  refine ⟨extractLoop_pairwise _ 0, ?_⟩
  rcases extractLoop_mem (itemSegments content) 0 s h with ⟨_, seg, hseg, hps⟩
  rw [Nat.sub_zero] at hseg
  exact ⟨seg, hseg, hps⟩

/-- C8, witness: a two-segment content whose first segment is dropped; the
surviving item carries segment index 1 (a gap at output position 0). -/
theorem receipt_parser_item_index_witness :
    gapItem ∈ extract_sales_data ("\n===ITEM_SEPARATOR===\nhello world") ∧
    (List.Pairwise (fun a b => a.item_index < b.item_index)
        (extract_sales_data ("\n===ITEM_SEPARATOR===\nhello world")) ∧
      ∃ seg,
        (itemSegments ("\n===ITEM_SEPARATOR===\nhello world"))[gapItem.item_index]? = some seg ∧
        _extract_single_item_sales_data (pyStrip seg) gapItem.item_index = some gapItem) :=
  ⟨by decide, receipt_parser_item_index _ gapItem (by decide)⟩

/-- C9: whenever the product-name candidate pool is non-empty, the chosen
`product_name` splits the pool as `pre ++ name :: suf` with every earlier
candidate strictly shorter and every candidate at most as long — i.e. the
longest candidate, first occurrence winning ties. -/
theorem product_name_longest_candidate (item_content : String) (i : Nat)
    (h : candidate_lines item_content i ≠ []) :
    ∃ pre suf,
      candidate_lines item_content i
        = pre ++ (_extract_single_item_record item_content i).product_name :: suf ∧
      (∀ x ∈ pre,
        x.length < (_extract_single_item_record item_content i).product_name.length) ∧
      (∀ x ∈ candidate_lines item_content i,
        x.length ≤ (_extract_single_item_record item_content i).product_name.length) := by
  obtain ⟨m, hm⟩ : ∃ m, pyMaxByLen (candidate_lines item_content i) = some m := by
    cases hcl : candidate_lines item_content i with
    | nil => exact absurd hcl h
    | cons x xs =>
      rcases pyMaxByLen_some x xs with ⟨m, hm⟩
      exact ⟨m, hm⟩
  have hrec : (_extract_single_item_record item_content i).product_name = m := by
    unfold _extract_single_item_record
    rw [(calc_preserves _).1]
    unfold chooseName
    have hm2 : pyMaxByLen
        ((pyLines item_content).filter
          (fun l => isCandidate (processLines (initItem i) [] (pyLines item_content)).2 l))
        = some m := hm
    rw [hm2]
  rw [hrec]
  rcases pyMaxByLen_spec _ m hm with ⟨⟨pre, suf, hsplit, hpre⟩, hall⟩
  exact ⟨pre, suf, hsplit, hpre, hall⟩

/-- C9, witness at a concrete two-candidate item. -/
theorem product_name_longest_candidate_witness :
    candidate_lines ("abcde\nfghijkl") 0 ≠ [] ∧
    ∃ pre suf,
      candidate_lines ("abcde\nfghijkl") 0
        = pre ++ (_extract_single_item_record ("abcde\nfghijkl") 0).product_name :: suf ∧
      (∀ x ∈ pre,
        x.length < (_extract_single_item_record ("abcde\nfghijkl") 0).product_name.length) ∧
      (∀ x ∈ candidate_lines ("abcde\nfghijkl") 0,
        x.length ≤ (_extract_single_item_record ("abcde\nfghijkl") 0).product_name.length) :=
  ⟨by decide, product_name_longest_candidate ("abcde\nfghijkl") 0 (by decide)⟩

/-- C10: every item returned by the receipt parser has a non-empty all-digit
`quantity` (the default `"1"` or a `\d+` capture), so the aggregators'
`int(quantity)` always succeeds. -/
theorem quantity_digits_invariant (content : String) (s : SalesItem)
    (h : s ∈ extract_sales_data content) :
    s.quantity ≠ ("") ∧ s.quantity.data.all Char.isDigit = true ∧
      ∃ n, pyInt? s.quantity = some n := by
  rcases extractLoop_mem (itemSegments content) 0 s h with ⟨_, seg, _, hps⟩
  have hrec := parse_some_eq _ _ _ hps
  have hq := record_quantity (pyStrip seg) s.item_index
  rw [← hrec] at hq
  exact ⟨hq.1, hq.2, pyInt?_digits _ hq.1 hq.2⟩

/-- C10, witness at a concrete parsed item. -/
theorem quantity_digits_invariant_witness :
    helloItem ∈ extract_sales_data ("hello world") ∧
    (helloItem.quantity ≠ ("") ∧ helloItem.quantity.data.all Char.isDigit = true ∧
      ∃ n, pyInt? helloItem.quantity = some n) :=
  ⟨by decide, quantity_digits_invariant ("hello world") helloItem (by decide)⟩

/-- C2, counterexample: duplicate role lines are not first-wins — with two
tax-code lines the parser keeps the value of the second (`"222"`), not the
first (`"111"`): the label branch assigns unconditionally. -/
theorem duplicate_role_counterexample :
    (_extract_single_item_sales_data ("УКТЗЕД 111\nУКТЗЕД 222") 0).map SalesItem.uktzed
      = some ("222") ∧ (("222" : String) = ("111")) = False :=
  ⟨by decide, by simp⟩

/-- C2, amended: for the four per-line fields the classifier is last-wins —
whatever precedes, a final matching line overwrites `uktzed`, `barcode`,
`price_details` or `price_breakdown` with its own value — while the bare-price
rule alone is first-wins: it fills `total_price` only when still empty. -/
theorem classifier_overwrite_semantics :
    (∀ (sd : SalesItem) (pats pre : List String) (l : String),
      strContains l uktzedLabel = true →
      (processLines sd pats (pre ++ [l])).1.uktzed = stripLabel uktzedLabel l) ∧
    (∀ (sd : SalesItem) (pats pre : List String) (l : String),
      ¬ strContains l uktzedLabel = true → strContains l barcodeLabel = true →
      (processLines sd pats (pre ++ [l])).1.barcode = stripLabel barcodeLabel l) ∧
    (∀ (sd : SalesItem) (pats pre : List String) (l : String),
      ¬ strContains l uktzedLabel = true → ¬ strContains l barcodeLabel = true →
      (strContains l ("*") && lineHasDigit l && strContains l shtToken) = true →
      (processLines sd pats (pre ++ [l])).1.price_details = l) ∧
    (∀ (sd : SalesItem) (pats pre : List String) (l : String),
      ¬ strContains l uktzedLabel = true → ¬ strContains l barcodeLabel = true →
      ¬ (strContains l ("*") && lineHasDigit l && strContains l shtToken) = true →
      (taxMarkers.any (fun m => strContains l m) && lineHasDigit l) = true →
      (processLines sd pats (pre ++ [l])).1.price_breakdown = l) ∧
    (∀ (sd : SalesItem) (pats pre : List String) (l : String),
      ¬ strContains l uktzedLabel = true → ¬ strContains l barcodeLabel = true →
      ¬ (strContains l ("*") && lineHasDigit l && strContains l shtToken) = true →
      ¬ (taxMarkers.any (fun m => strContains l m) && lineHasDigit l) = true →
      isBarePriceLine l = true →
      (processLines sd pats (pre ++ [l])).1.total_price =
        (if (processLines sd pats pre).1.total_price = ("") then pyStrip l
         else (processLines sd pats pre).1.total_price)) := by
  refine ⟨?_, ?_, ?_, ?_, ?_⟩
  · intro sd pats pre l h
    rw [processLines_append, processLines, processLines]
    exact stepLine_uktzed_set _ _ _ h
  · intro sd pats pre l h1 h2
    rw [processLines_append, processLines, processLines]
    exact stepLine_barcode_set _ _ _ h1 h2
  · intro sd pats pre l h1 h2 h3
    rw [processLines_append, processLines, processLines]
    exact stepLine_price_details_set _ _ _ h1 h2 h3
  · intro sd pats pre l h1 h2 h3 h4
    rw [processLines_append, processLines, processLines]
    exact stepLine_price_breakdown_set _ _ _ h1 h2 h3 h4
  · intro sd pats pre l h1 h2 h3 h4 h5
    rw [processLines_append, processLines, processLines]
    exact stepLine_bare_price _ _ _ h1 h2 h3 h4 h5

/-- C2, witness: the last of two tax-code lines dictates `uktzed` regardless
of the earlier one. -/
theorem classifier_overwrite_semantics_witness :
    strContains ("УКТЗЕД 222") uktzedLabel = true ∧
    (processLines (initItem 0) [] ([("УКТЗЕД 111")] ++ [("УКТЗЕД 222")])).1.uktzed
      = stripLabel uktzedLabel ("УКТЗЕД 222") :=
  ⟨by decide,
    classifier_overwrite_semantics.1 (initItem 0) [] [("УКТЗЕД 111")] ("УКТЗЕД 222") (by decide)⟩

/-- C4, counterexample: with a zero quantity the total-price derivation is
not "left as is" — for the item `"Paracetamol tablets" / "5.00 * 0 шт"` the
multiplication branch still runs and writes `total_price = "0.00"`. -/
theorem zero_quantity_derivation_counterexample :
    _extract_single_item_sales_data ("Paracetamol tablets\n5.00 * 0 шт") 0 =
      some { product_name := "Paracetamol tablets", uktzed := "", barcode := "",
             quantity := "0", unit_price := "5.00", total_price := "0.00",
             currency := "UAH", price_details := "5.00 * 0 шт", price_breakdown := "",
             item_index := 0 } ∧
    (("0.00" : String) = ("")) = False :=
  ⟨by decide, by simp⟩

/-- C4, amended: when `unit_price` is present and parses, `total_price` is
absent and `quantity` is a non-`"1"` parseable string, the derived total is
the exact product rounded to two decimals; scenario `"50.00 * 2 шт"` derives
`"100.00"`; derivation never raises — an empty or non-numeric quantity leaves
the record unchanged, and a zero quantity leaves it unchanged only in the
division branch (`unit_price` absent), while in the multiplication branch it
yields `"0.00"` per the product formula. -/
theorem price_derivation_amended :
    (∀ (sd : SalesItem) (u q : Dec), sd.unit_price ≠ ("") → sd.total_price = ("") →
      sd.quantity ≠ ("") → sd.quantity ≠ ("1") →
      pyFloat? (commaToDot sd.unit_price) = some u → pyFloat? sd.quantity = some q →
      (_calculate_missing_prices sd).total_price = formatFixed2 (dmul u q)) ∧
    (_extract_single_item_record ("50.00 * 2 шт") 0).total_price = ("100.00") ∧
    (∀ sd : SalesItem, sd.quantity = ("") → _calculate_missing_prices sd = sd) ∧
    (∀ sd : SalesItem, pyFloat? sd.quantity = none → _calculate_missing_prices sd = sd) ∧
    (∀ (sd : SalesItem) (q : Dec), pyFloat? sd.quantity = some q → q.num = 0 →
      sd.unit_price = ("") → _calculate_missing_prices sd = sd) := by
  refine ⟨?_, by decide, ?_, ?_, ?_⟩
  · intro sd u q h1 h2 h3 h4 h5 h6
    unfold _calculate_missing_prices calcBody
    rw [if_neg (fun hcon => h1 hcon.1), if_pos ⟨h1, h2, h3⟩, h5, h6]
  · intro sd h
    unfold _calculate_missing_prices calcBody
    rw [if_neg (fun hcon => hcon.2.2.1 h), if_neg (fun hcon => hcon.2.2 h)]
  · intro sd h
    unfold _calculate_missing_prices calcBody
    by_cases c1 : sd.unit_price = ("") ∧ sd.total_price ≠ ("") ∧
        sd.quantity ≠ ("") ∧ sd.quantity ≠ ("1")
    · rw [if_pos c1]
      cases hpt : pyFloat? (commaToDot sd.total_price) with
      | none => rfl
      | some t => rw [h]
    · rw [if_neg c1]
      by_cases c2 : sd.unit_price ≠ ("") ∧ sd.total_price = ("") ∧ sd.quantity ≠ ("")
      · rw [if_pos c2]
        cases hpu : pyFloat? (commaToDot sd.unit_price) with
        | none => rfl
        | some u => rw [h]
      · rw [if_neg c2]
  · intro sd q hq h0 hu
    unfold _calculate_missing_prices calcBody
    by_cases c1 : sd.unit_price = ("") ∧ sd.total_price ≠ ("") ∧
        sd.quantity ≠ ("") ∧ sd.quantity ≠ ("1")
    · rw [if_pos c1]
      cases hpt : pyFloat? (commaToDot sd.total_price) with
      | none => rfl
      | some t => rw [hq]; simp [h0]
    · rw [if_neg c1]
      rw [if_neg (fun hcon => hcon.1 hu)]

/-- C4, witness: the derivation formula applied at a concrete record with
`unit_price = "50.00"` and `quantity = "2"`. -/
theorem price_derivation_amended_witness :
    sdUnitOnly.unit_price ≠ ("") ∧ sdUnitOnly.total_price = ("") ∧
    sdUnitOnly.quantity ≠ ("") ∧ sdUnitOnly.quantity ≠ ("1") ∧
    pyFloat? (commaToDot sdUnitOnly.unit_price) = some ⟨5000, 100⟩ ∧
    pyFloat? sdUnitOnly.quantity = some ⟨2, 1⟩ ∧
    (_calculate_missing_prices sdUnitOnly).total_price
      = formatFixed2 (dmul ⟨5000, 100⟩ ⟨2, 1⟩) :=
  ⟨by decide, by decide, by decide, by decide, by decide, by decide,
    price_derivation_amended.1 sdUnitOnly ⟨5000, 100⟩ ⟨2, 1⟩
      (by decide) (by decide) (by decide) (by decide) (by decide) (by decide)⟩

end Pharmacy
